import Mathlib

/-!
Shallow embedding of the `fdr` search engine (the Rust crate `fdr-core`,
file `core/src/lib.rs`) and of its Ruby binding layer (`ffi/src/lib.rs`).

Paths, compiled regexes and the directory walker are supplied capabilities of
the Rust ecosystem (`std::path`, `regex`, `ignore`); they are embedded
abstractly: a platform path is represented by the three views the engine
actually reads from it (`to_string_lossy`, `file_name().to_string_lossy`,
`to_str`), and a compiled regex by the pattern/flag pair handed to
`RegexBuilder` together with an abstract byte matcher.  Everything the engine
itself computes — filter compilation, the per-entry predicate pipeline, the
batched result-collection protocol, the binding-layer argument validation —
is translated directly from the source.
-/

namespace Fdr

/-- `std::fs::FileType` as observed by the engine: `is_file`, `is_dir`,
`is_symlink`; `other` stands for any further platform file type (socket,
fifo, …) for which all three predicates are false. -/
inductive FileType where
  | file
  | dir
  | symlink
  | other
deriving DecidableEq, Repr

/-- The metadata the engine reads from `std::fs::Metadata`: the byte length
(`len`, a `u64`) and the modification time in whole seconds since the Unix
epoch.  `modified = none` models the case where `metadata.modified()` or
`modified.duration_since(UNIX_EPOCH)` returns `Err`. -/
structure Metadata where
  len : Nat
  modified : Option Nat
deriving DecidableEq, Repr

/-- One filesystem node produced by the traversal primitive
(`ignore::DirEntry`), restricted to the views the engine reads:
depth from its root, `entry.file_type()` (an `Option`), the three string
views of `entry.path()`, and `entry.metadata()` (`none` models `Err`).
`path_utf8 = some s` models `path.to_str() == Some(s)`: it is `some` exactly
when the platform path is valid UTF-8. -/
structure TraversalEntry where
  depth : Nat
  file_type : Option FileType
  path_lossy : String
  file_name_lossy : String
  path_utf8 : Option String
  metadata : Option Metadata

/-- Largest value of the Rust type `i64`. -/
def I64_MAX : Int := 9223372036854775807

/-- Smallest value of the Rust type `i64`. -/
def I64_MIN : Int := -9223372036854775808

/-- `i64::saturating_sub` on mathematical integers that are within the
`i64` range. -/
def i64_saturating_sub (a b : Int) : Int :=
  max I64_MIN (min I64_MAX (a - b))

/-- `i64::try_from(u64_secs).unwrap_or(i64::MAX)`: the conversion of a file
time to `i64` in `matches_metadata_filters`. -/
def file_time_of (secs : Nat) : Int :=
  if (secs : Int) ≤ I64_MAX then (secs : Int) else I64_MAX

/-- The `now` computation of `matches_metadata_filters`:
`SystemTime::now().duration_since(UNIX_EPOCH)` converted with
`i64::try_from(..).unwrap_or(i64::MAX)` on success and `unwrap_or(0)` when
the current time is before the epoch (`none`). -/
def now_of (now_secs : Option Nat) : Int :=
  match now_secs with
  | some s => if (s : Int) ≤ I64_MAX then (s : Int) else I64_MAX
  | none => 0

/-- Translation of `matches_metadata_filters` from `core/src/lib.rs`.
`meta = none` models `entry.metadata()` returning `Err`; `now_secs` models
the ambient clock read inside the function. -/
def matches_metadata_filters (meta : Option Metadata)
    (min_size max_size : Option Nat)
    (changed_within changed_before : Option Int)
    (now_secs : Option Nat) : Bool :=
  if min_size.isNone && max_size.isNone
      && changed_within.isNone && changed_before.isNone then
    true
  else
    match meta with
    | none => false
    | some md =>
      if (match min_size with
          | some min => decide (md.len < min)
          | none => false) then
        false
      else if (match max_size with
          | some max => decide (max < md.len)
          | none => false) then
        false
      else if changed_within.isSome || changed_before.isSome then
        match md.modified with
        | some secs =>
          let file_time := file_time_of secs
          let now := now_of now_secs
          if (match changed_within with
              | some within_seconds =>
                decide (file_time < i64_saturating_sub now within_seconds)
              | none => false) then
            false
          else if (match changed_before with
              | some before_seconds =>
                decide (i64_saturating_sub now before_seconds < file_time)
              | none => false) then
            false
          else
            true
        | none => true
      else
        true

/-- The shared per-worker state captured by the closure in `search`:
the compiled pattern and extension matchers (abstract byte matchers applied
to the search string), the `full_path` flag, the file-type token, the
size/time bounds, and the ambient clock (`SystemTime::now`, read by
`matches_metadata_filters`). -/
structure CompiledMatchers where
  pattern : Option (String → Bool)
  extension : Option (String → Bool)
  full_path : Bool
  file_type : Option String
  min_size : Option Nat
  max_size : Option Nat
  changed_within : Option Int
  changed_before : Option Int
  now_secs : Option Nat

/-- The depth-zero skip at the top of the per-entry closure:
`entry.depth() == 0 && entry.file_type().is_some_and(|t| t.is_dir())`. -/
def rootSkip (e : TraversalEntry) : Bool :=
  decide (e.depth = 0) && (e.file_type == some FileType.dir)

/-- The `search_str` computation: the full lossy path when `full_path` is
set, otherwise `path.file_name().unwrap_or_default().to_string_lossy()`. -/
def searchTarget (m : CompiledMatchers) (e : TraversalEntry) : String :=
  if m.full_path then e.path_lossy else e.file_name_lossy

/-- The pattern stage: accept unless a pattern matcher exists and fails on
the search string. -/
def patternOk (m : CompiledMatchers) (e : TraversalEntry) : Bool :=
  match m.pattern with
  | some r => r (searchTarget m e)
  | none => true

/-- The extension stage: accept unless an extension matcher exists and fails
on the search string. -/
def extensionOk (m : CompiledMatchers) (e : TraversalEntry) : Bool :=
  match m.extension with
  | some r => r (searchTarget m e)
  | none => true

/-- The `match ft.as_str()` arm of the file-type stage in `search`. -/
def fileTypeMatches (ft : String) (t : Option FileType) : Bool :=
  if ft = "f" ∨ ft = "file" then t == some FileType.file
  else if ft = "d" ∨ ft = "dir" ∨ ft = "directory" then t == some FileType.dir
  else if ft = "l" ∨ ft = "symlink" then t == some FileType.symlink
  else true

/-- The file-type stage: accept unless a restriction exists and
`fileTypeMatches` fails. -/
def fileTypeOk (m : CompiledMatchers) (e : TraversalEntry) : Bool :=
  match m.file_type with
  | some ft => fileTypeMatches ft e.file_type
  | none => true

/-- The metadata stage of the pipeline. -/
def metadataOk (m : CompiledMatchers) (e : TraversalEntry) : Bool :=
  matches_metadata_filters e.metadata m.min_size m.max_size
    m.changed_within m.changed_before m.now_secs

/-- The per-entry closure body of `search`: `none` is a skip
(`WalkState::Continue` without a push), `some p` means `p` was pushed into
the worker's batch.  The argument `oe = none` models a traversal error for
the entry (`let Ok(entry) = entry else continue`).  The final step is
`if let Some(path_str) = path.to_str() { batch.push(..) }`: an accepted
entry contributes its path exactly when the path is valid UTF-8. -/
def acceptEntry (m : CompiledMatchers) (oe : Option TraversalEntry) :
    Option String :=
  match oe with
  | none => none
  | some e =>
    if rootSkip e then none
    else if !(patternOk m e) then none
    else if !(extensionOk m e) then none
    else if !(fileTypeOk m e) then none
    else if !(metadataOk m e) then none
    else e.path_utf8

/-- `BATCH_SIZE` from `core/src/lib.rs`. -/
def BATCH_SIZE : Nat := 256

/-- The observable state of one worker's `ResultBatch`: the pending buffer
and the sequence of batches already sent over the channel, in send order. -/
structure BatchState where
  batch : List String
  sent : List (List String)

/-- `ResultBatch::push`: append the item, then flush if the buffer has
reached `BATCH_SIZE`. -/
def pushItem (s : BatchState) (item : String) : BatchState :=
  let b := s.batch ++ [item]
  if BATCH_SIZE ≤ b.length then ⟨[], s.sent ++ [b]⟩ else ⟨b, s.sent⟩

/-- `ResultBatch::flush`: send the pending buffer if it is nonempty.  This is
also the `Drop` action. -/
def flushBatch (s : BatchState) : BatchState :=
  if s.batch.isEmpty then s else ⟨[], s.sent ++ [s.batch]⟩

/-- One step of a worker: run the entry through the pipeline and push the
path on acceptance. -/
def stepEntry (m : CompiledMatchers) (s : BatchState) (oe : Option TraversalEntry) :
    BatchState :=
  match acceptEntry m oe with
  | some p => pushItem s p
  | none => s

/-- One worker's complete unit of work: process its stream of entries
starting from an empty `ResultBatch`, then flush on drop.  The result is the
sequence of batches this worker sent, in send order. -/
def runWorker (m : CompiledMatchers) (es : List (Option TraversalEntry)) :
    List (List String) :=
  (flushBatch (es.foldl (stepEntry m) ⟨[], []⟩)).sent

/-- The paths a worker pushes, in encounter order. -/
def acceptedPaths (m : CompiledMatchers) (es : List (Option TraversalEntry)) :
    List String :=
  es.filterMap (acceptEntry m)

/-- The engine's `SearchConfig` struct.  `u64`/`usize` fields become `Nat`,
`i64` fields become `Int`, `PathBuf` becomes a path string. -/
structure SearchConfig where
  pattern : Option String := none
  paths : List String := []
  hidden : Bool := false
  no_ignore : Bool := false
  case_sensitive : Bool := false
  glob : Bool := false
  full_path : Bool := false
  max_depth : Option Nat := none
  min_depth : Option Nat := none
  file_type : Option String := none
  extension : Option String := none
  exclude : List String := []
  follow : Bool := false
  min_size : Option Nat := none
  max_size : Option Nat := none
  changed_within : Option Int := none
  changed_before : Option Int := none

/-- What the engine hands to `regex::bytes::RegexBuilder`: the pattern
source string and the `case_insensitive` flag. -/
structure RegexSpec where
  source : String
  case_insensitive : Bool
deriving DecidableEq, Repr

/-- The supplied capabilities of the Rust ecosystem, abstracted: regex
compilation (`RegexBuilder::build`), glob translation
(`globset::GlobBuilder` with `literal_separator(true)`, then
`.regex().to_string()`), and the override machinery of the `ignore` crate
(`OverrideBuilder::add` and `::build`). -/
structure Primitives where
  compile : RegexSpec → Except String (String → Bool)
  globset_regex : String → Except String String
  override_add : String → Except String Unit
  overrides_build : List String → Except String Unit

/-- The character set escaped by `regex::escape`
(`regex-syntax`'s meta characters). -/
def regexMetaChars : List Char :=
  ['\\', '.', '+', '*', '?', '(', ')', '|', '[', ']',
   Char.ofNat 123, Char.ofNat 125, '^', '$', '#', '&', '-', '~']

/-- `regex::escape`: prefix every meta character with a backslash. -/
def regexEscape (s : String) : String :=
  String.mk (s.toList.foldr
    (fun c acc => if c ∈ regexMetaChars then '\\' :: c :: acc else c :: acc)
    [])

/-- `glob_to_regex` from `core/src/lib.rs`: delegate to globset with literal
path separators. -/
def glob_to_regex (P : Primitives) (glob : String) : Except String String :=
  P.globset_regex glob

/-- `build_pattern_regex`: translate the pattern from glob syntax when the
glob flag is set, then compile it with `case_insensitive(!case_sensitive)`.
On success the result carries the `RegexSpec` handed to the builder together
with the abstract compiled matcher. -/
def build_pattern_regex (P : Primitives) (config : SearchConfig) :
    Except String (Option (RegexSpec × (String → Bool))) :=
  match config.pattern with
  | some pat => do
    let regex_pattern ← if config.glob then glob_to_regex P pat else Except.ok pat
    let spec : RegexSpec := ⟨regex_pattern, !config.case_sensitive⟩
    let r ← P.compile spec
    Except.ok (some (spec, r))
  | none => Except.ok none

/-- `build_extension_regex`: the fixed suffix pattern
`\.` + escaped-extension + `$`, compiled with `case_insensitive(true)`. -/
def build_extension_regex (P : Primitives) (config : SearchConfig) :
    Except String (Option (RegexSpec × (String → Bool))) :=
  match config.extension with
  | some ext => do
    let spec : RegexSpec := ⟨"\\." ++ regexEscape ext ++ "$", true⟩
    let r ← P.compile spec
    Except.ok (some (spec, r))
  | none => Except.ok none

/-- The traversal policy handed to `ignore::WalkBuilder` by
`configure_walker`.  The built override set is opaque; the policy records
the exclude patterns it was built from. -/
structure WalkPolicy where
  hidden : Bool
  ignore : Bool
  git_ignore : Bool
  follow_links : Bool
  max_depth : Option Nat
  min_depth : Option Nat
  overrides : Option (List String)

/-- The loop in `configure_walker` that adds `!{pattern}` override rules:
each `OverrideBuilder::add` may fail. -/
def add_overrides (P : Primitives) : List String → Except String Unit
  | [] => Except.ok ()
  | pat :: rest => do
    let _ ← P.override_add ("!" ++ pat)
    add_overrides P rest

/-- `configure_walker`: set the walk flags and depth bounds, and when the
exclude list is nonempty add each pattern as a `!`-override and build the
override set; any failure aborts. -/
def configure_walker (P : Primitives) (config : SearchConfig) :
    Except String WalkPolicy :=
  let base : WalkPolicy :=
    ⟨!config.hidden, !config.no_ignore, !config.no_ignore, config.follow,
      config.max_depth, config.min_depth, none⟩
  if config.exclude.isEmpty then Except.ok base
  else do
    let _ ← add_overrides P config.exclude
    let _ ← P.overrides_build config.exclude
    Except.ok { base with overrides := some config.exclude }

/-- The `search` entry point, restricted to what it computes itself: compile
the pattern and extension matchers, default the root list to `"."`, split
off the first root, configure the walker, and — the traversal and channel
being the nondeterministic part — assemble the drained batches (`arrival`,
the batch sequence in channel-arrival order) by flattening them in order. -/
def search (P : Primitives) (config : SearchConfig)
    (arrival : List (List String)) : Except String (List String) := do
  let _pattern ← build_pattern_regex P config
  let _extension ← build_extension_regex P config
  let search_paths := if config.paths.isEmpty then ["."] else config.paths
  match search_paths with
  | [] => Except.error "No paths to search"
  | _first :: _rest => do
    let _policy ← configure_walker P config
    Except.ok arrival.flatten

/-! ### The Ruby binding layer (`ffi/src/lib.rs`) -/

/-- `SearchParams` from `ffi/src/lib.rs`: the keyword arguments after
`extract_search_params` (absent or unconvertible keywords are `none`);
Ruby integer arguments arrive as signed `i64` values, embedded as `Int`. -/
structure SearchParams where
  pattern : Option String := none
  paths : Option (List String) := none
  hidden : Option Bool := none
  no_ignore : Option Bool := none
  case_sensitive : Option Bool := none
  glob : Option Bool := none
  full_path : Option Bool := none
  follow : Option Bool := none
  max_depth : Option Int := none
  min_depth : Option Int := none
  file_type : Option String := none
  extension : Option String := none
  exclude : Option (List String) := none
  min_size : Option Int := none
  max_size : Option Int := none
  changed_within : Option Int := none
  changed_before : Option Int := none

/-- `usize::try_from` / `u64::try_from` on an optional `i64` argument, with
the `ArgumentError` message used by `build_search_config`: fails exactly on
negative values. -/
def require_nonneg_nat (name : String) (v : Option Int) :
    Except String (Option Nat) :=
  match v with
  | none => Except.ok none
  | some x =>
    if x < 0 then
      Except.error (name ++ " must be a non-negative integer, got " ++ toString x)
    else
      Except.ok (some x.toNat)

/-- The explicit `< 0` check on `changed_within`/`changed_before` (stored as
`i64`, not converted), with the same `ArgumentError` message shape. -/
def require_nonneg_time (name : String) (v : Option Int) :
    Except String (Option Int) :=
  match v with
  | none => Except.ok none
  | some x =>
    if x < 0 then
      Except.error (name ++ " must be a non-negative integer, got " ++ toString x)
    else
      Except.ok (some x)

/-- `build_search_config`: fill a default `SearchConfig` from the supplied
params.  The fallible numeric conversions are performed in the source's
order — `max_depth`, `min_depth`, `min_size`, `max_size`, `changed_within`,
`changed_before` — so the first negative argument in that order determines
the error. -/
def build_search_config (p : SearchParams) : Except String SearchConfig := do
  let max_depth ← require_nonneg_nat "max_depth" p.max_depth
  let min_depth ← require_nonneg_nat "min_depth" p.min_depth
  let min_size ← require_nonneg_nat "min_size" p.min_size
  let max_size ← require_nonneg_nat "max_size" p.max_size
  let changed_within ← require_nonneg_time "changed_within" p.changed_within
  let changed_before ← require_nonneg_time "changed_before" p.changed_before
  Except.ok {
    pattern := p.pattern
    paths := p.paths.getD []
    hidden := p.hidden.getD false
    no_ignore := p.no_ignore.getD false
    case_sensitive := p.case_sensitive.getD false
    glob := p.glob.getD false
    full_path := p.full_path.getD false
    follow := p.follow.getD false
    max_depth := max_depth
    min_depth := min_depth
    file_type := p.file_type
    extension := p.extension
    exclude := p.exclude.getD []
    min_size := min_size
    max_size := max_size
    changed_within := changed_within
    changed_before := changed_before
  }

/-- `fdr_search`: build the config (raising `ArgumentError` on negative
numeric arguments), short-circuit to an empty Ruby array when both depth
bounds are present with `min > max`, and otherwise run the engine —
abstracted here as a function argument, so that "the engine is not invoked"
is expressible as independence from it.  An engine error is wrapped as
`Search failed: …`. -/
def fdr_search (p : SearchParams)
    (engine : SearchConfig → Except String (List String)) :
    Except String (List String) := do
  let config ← build_search_config p
  if (match config.min_depth, config.max_depth with
      | some mn, some mx => decide (mx < mn)
      | _, _ => false) then
    Except.ok []
  else
    match engine config with
    | Except.error err => Except.error ("Search failed: " ++ err)
    | Except.ok results => Except.ok results

/-! ### Concrete fixtures used by witnesses and counterexamples -/

/-- Matchers with no pattern, no extension, no file-type token and no
size/time bound — the compiled form of a default `SearchConfig`. -/
def mNone : CompiledMatchers :=
  ⟨none, none, false, none, none, none, none, none, none⟩

/-- Matchers identical to `mNone` except for the file-type token `"dir"`. -/
def mDirToken : CompiledMatchers :=
  ⟨none, none, false, some "dir", none, none, none, none, none⟩

/-- A depth-1 regular file whose platform path is valid UTF-8. -/
def eUtf8 : TraversalEntry :=
  ⟨1, some FileType.file, "./a.txt", "a.txt", some "./a.txt", none⟩

/-- A depth-1 regular file whose platform path is NOT valid UTF-8:
`to_str` returns `none` while the lossy views replace the bad byte with
U+FFFD. -/
def eNonUtf8 : TraversalEntry :=
  ⟨1, some FileType.file, "./b�.txt", "b�.txt", none, none⟩

/-- A depth-0 directory entry: a search root that is a directory. -/
def eRootDir : TraversalEntry :=
  ⟨0, some FileType.dir, ".", ".", some ".", none⟩

/-- A depth-0 regular-file entry: a search root that is a file. -/
def eRootFile : TraversalEntry :=
  ⟨0, some FileType.file, "root.txt", "root.txt", some "root.txt", none⟩

/-- Primitives whose compilation steps all succeed (the compiled matcher
accepts everything). -/
def trivialPrims : Primitives :=
  ⟨fun _ => Except.ok fun _ => true, fun g => Except.ok g,
   fun _ => Except.ok (), fun _ => Except.ok ()⟩

/-- Primitives whose regex compilation fails, modelling a malformed
pattern. -/
def failPrims : Primitives :=
  ⟨fun _ => Except.error "regex parse error",
   fun _ => Except.error "glob parse error",
   fun _ => Except.ok (), fun _ => Except.ok ()⟩

/-- A config with both a pattern and an extension filter. -/
def cfg4 : SearchConfig := { pattern := some "foo", extension := some "txt" }

/-- A config whose pattern is malformed regex syntax. -/
def cfgBadPattern : SearchConfig := { pattern := some "[invalid(regex" }

/-- Binding params with valid depths, minimum exceeding maximum. -/
def p9 : SearchParams := { min_depth := some 5, max_depth := some 3 }

/-- Binding params with negative depths whose minimum exceeds the maximum. -/
def p9neg : SearchParams := { min_depth := some (-1), max_depth := some (-2) }

/-- Binding params with a negative `max_depth`. -/
def p10 : SearchParams := { max_depth := some (-1) }

/-! ### Helper lemmas: the batch-flush protocol -/

theorem pushItem_flat (s : BatchState) (p : String) :
    (pushItem s p).sent.flatten ++ (pushItem s p).batch
      = s.sent.flatten ++ s.batch ++ [p] := by
  unfold pushItem
  simp only [List.length_append, List.length_cons, List.length_nil]
  by_cases h : BATCH_SIZE ≤ s.batch.length + 1
  · rw [if_pos h]
    simp [List.flatten_append, List.append_assoc]
  · rw [if_neg h]
    simp [List.append_assoc]

theorem stepEntry_flat (m : CompiledMatchers) (s : BatchState)
    (oe : Option TraversalEntry) :
    (stepEntry m s oe).sent.flatten ++ (stepEntry m s oe).batch
      = s.sent.flatten ++ s.batch ++ (acceptEntry m oe).toList := by
  unfold stepEntry
  cases h : acceptEntry m oe <;> simp [pushItem_flat]

theorem foldl_stepEntry_flat (m : CompiledMatchers)
    (es : List (Option TraversalEntry)) : ∀ s : BatchState,
    (es.foldl (stepEntry m) s).sent.flatten ++ (es.foldl (stepEntry m) s).batch
      = s.sent.flatten ++ s.batch ++ acceptedPaths m es := by
  induction es with
  | nil => intro s; simp [acceptedPaths]
  | cons oe rest ih =>
    intro s
    rw [List.foldl_cons, ih (stepEntry m s oe), stepEntry_flat]
    simp [acceptedPaths, List.filterMap_cons]
    cases acceptEntry m oe <;> simp [List.append_assoc]

theorem flushBatch_flat (s : BatchState) :
    (flushBatch s).sent.flatten = s.sent.flatten ++ s.batch := by
  unfold flushBatch
  by_cases h : s.batch.isEmpty
  · rw [if_pos h]; rw [List.isEmpty_iff] at h; simp [h]
  · rw [if_neg h]; simp [List.flatten_append]

theorem runWorker_flatten (m : CompiledMatchers)
    (es : List (Option TraversalEntry)) :
    (runWorker m es).flatten = acceptedPaths m es := by
  unfold runWorker
  rw [flushBatch_flat, foldl_stepEntry_flat]
  simp

theorem flatten_map_runWorker (m : CompiledMatchers)
    (ws : List (List (Option TraversalEntry))) :
    ((ws.map (runWorker m)).flatten).flatten
      = (ws.map (acceptedPaths m)).flatten := by
  induction ws with
  | nil => rfl
  | cons w ws ih =>
    simp only [List.map_cons, List.flatten_cons, List.flatten_append,
      runWorker_flatten, ih]

theorem perm_flatten_of_perm {α : Type} {l₁ l₂ : List (List α)}
    (h : l₁.Perm l₂) : l₁.flatten.Perm l₂.flatten := by
  induction h with
  | nil => exact List.Perm.refl _
  | cons x _ ih => simpa using ih.append_left x
  | swap x y l =>
    simp only [List.flatten_cons, ← List.append_assoc]
    exact List.perm_append_comm.append_right _
  | trans _ _ ih₁ ih₂ => exact ih₁.trans ih₂

/-- The invariant maintained by a worker's batch state: the pending buffer
is strictly below capacity and every sent batch has exactly `BATCH_SIZE`
elements. -/
def BatchInv (s : BatchState) : Prop :=
  s.batch.length < BATCH_SIZE ∧ ∀ b ∈ s.sent, b.length = BATCH_SIZE

theorem pushItem_inv {s : BatchState} (h : BatchInv s) (p : String) :
    BatchInv (pushItem s p) := by
  obtain ⟨h1, h2⟩ := h
  unfold pushItem BatchInv
  by_cases hb : BATCH_SIZE ≤ (s.batch ++ [p]).length
  · rw [if_pos hb]
    refine ⟨by simp [BATCH_SIZE], ?_⟩
    intro b hb2
    rcases List.mem_append.1 hb2 with hold | hnew
    · exact h2 b hold
    · rw [List.mem_singleton] at hnew
      subst hnew
      simp only [List.length_append, List.length_cons, List.length_nil] at hb ⊢
      omega
  · rw [if_neg hb]
    refine ⟨?_, h2⟩
    simp only [List.length_append, List.length_cons, List.length_nil] at hb ⊢
    omega

theorem stepEntry_inv {s : BatchState} (h : BatchInv s) (m : CompiledMatchers)
    (oe : Option TraversalEntry) : BatchInv (stepEntry m s oe) := by
  unfold stepEntry
  cases acceptEntry m oe with
  | none => exact h
  | some p => exact pushItem_inv h p

theorem foldl_stepEntry_inv (m : CompiledMatchers)
    (es : List (Option TraversalEntry)) :
    ∀ s : BatchState, BatchInv s → BatchInv (es.foldl (stepEntry m) s) := by
  induction es with
  | nil => intro s h; exact h
  | cons oe rest ih =>
    intro s h
    exact ih (stepEntry m s oe) (stepEntry_inv h m oe)

theorem runWorker_batch_bounds (m : CompiledMatchers)
    (es : List (Option TraversalEntry)) (b : List String)
    (hb : b ∈ runWorker m es) : 0 < b.length ∧ b.length ≤ BATCH_SIZE := by
  have hinv : BatchInv (es.foldl (stepEntry m) ⟨[], []⟩) :=
    foldl_stepEntry_inv m es ⟨[], []⟩ ⟨by simp [BATCH_SIZE], by simp⟩
  obtain ⟨h1, h2⟩ := hinv
  unfold runWorker flushBatch at hb
  by_cases he : (es.foldl (stepEntry m) ⟨[], []⟩).batch.isEmpty
  · rw [if_pos he] at hb
    have := h2 b hb
    omega
  · rw [if_neg he] at hb
    rcases List.mem_append.1 hb with hold | hnew
    · have := h2 b hold
      omega
    · rw [List.mem_singleton] at hnew
      subst hnew
      rw [List.isEmpty_iff] at he
      have : (es.foldl (stepEntry m) ⟨[], []⟩).batch.length ≠ 0 := by
        intro h0
        exact he (List.length_eq_zero.1 h0)
      omega

theorem runWorker_dropLast_full (m : CompiledMatchers)
    (es : List (Option TraversalEntry)) (b : List String)
    (hb : b ∈ (runWorker m es).dropLast) : b.length = BATCH_SIZE := by
  have hinv : BatchInv (es.foldl (stepEntry m) ⟨[], []⟩) :=
    foldl_stepEntry_inv m es ⟨[], []⟩ ⟨by simp [BATCH_SIZE], by simp⟩
  obtain ⟨_, h2⟩ := hinv
  unfold runWorker flushBatch at hb
  by_cases he : (es.foldl (stepEntry m) ⟨[], []⟩).batch.isEmpty
  · rw [if_pos he] at hb
    exact h2 b (List.dropLast_subset _ hb)
  · rw [if_neg he] at hb
    simp only [List.dropLast_concat] at hb
    exact h2 b hb

/-! ### Claim theorems -/

/-- Claim C2: a worker's `ResultBatch` is flushed when it reaches
capacity 256 or when the worker's unit of work ends, and the assembler's
flattening of the drained batches (any arrival order that delivers every
sent batch exactly once) yields exactly the pushed paths with no loss and
no duplication; within one worker the flattened batches reproduce the
pushed paths in order, every sent batch is nonempty with at most 256
entries, and every batch except possibly the last holds exactly 256. -/
theorem c2_batch_protocol (m : CompiledMatchers)
    (workers : List (List (Option TraversalEntry)))
    (arrival : List (List String))
    (h : arrival.Perm ((workers.map (runWorker m)).flatten)) :
    arrival.flatten.Perm ((workers.map (acceptedPaths m)).flatten)
    ∧ (∀ es, (runWorker m es).flatten = acceptedPaths m es)
    ∧ (∀ es b, b ∈ runWorker m es → 0 < b.length ∧ b.length ≤ BATCH_SIZE)
    ∧ (∀ es b, b ∈ (runWorker m es).dropLast → b.length = BATCH_SIZE) := by
  refine ⟨?_, runWorker_flatten m, runWorker_batch_bounds m,
    runWorker_dropLast_full m⟩
  have := perm_flatten_of_perm h
  rwa [flatten_map_runWorker] at this

/-- Witness for C2 at a concrete one-worker run. -/
theorem c2_witness :
    ([["./a.txt"]] : List (List String)).flatten.Perm
      (([[some eUtf8]].map (acceptedPaths mNone)).flatten)
    ∧ (∀ es, (runWorker mNone es).flatten = acceptedPaths mNone es)
    ∧ (∀ es b, b ∈ runWorker mNone es → 0 < b.length ∧ b.length ≤ BATCH_SIZE)
    ∧ (∀ es b, b ∈ (runWorker mNone es).dropLast → b.length = BATCH_SIZE) :=
  c2_batch_protocol mNone [[some eUtf8]] [["./a.txt"]] (List.Perm.refl _)

/-- Claim C1 (amended): every traversal entry that passes the full predicate
pipeline AND whose platform path is valid UTF-8 is pushed into its worker's
batch and appears in the assembled result; the claim's original form, which
extends this to non-UTF-8 paths, fails — see the counterexample. -/
theorem c1_accepted_utf8_in_result (m : CompiledMatchers) (e : TraversalEntry)
    (p : String) (es : List (Option TraversalEntry))
    (workers : List (List (Option TraversalEntry)))
    (arrival : List (List String))
    (h1 : rootSkip e = false) (h2 : patternOk m e = true)
    (h3 : extensionOk m e = true) (h4 : fileTypeOk m e = true)
    (h5 : metadataOk m e = true) (hp : e.path_utf8 = some p)
    (hes : es ∈ workers) (hmem : some e ∈ es)
    (harr : arrival.Perm ((workers.map (runWorker m)).flatten)) :
    p ∈ acceptedPaths m es ∧ p ∈ arrival.flatten := by
  have hacc : acceptEntry m (some e) = some p := by
    simp [acceptEntry, h1, h2, h3, h4, h5, hp]
  have hmem1 : p ∈ acceptedPaths m es :=
    List.mem_filterMap.2 ⟨some e, hmem, hacc⟩
  refine ⟨hmem1, ?_⟩
  have hmem2 : p ∈ (workers.map (acceptedPaths m)).flatten :=
    List.mem_flatten.2 ⟨acceptedPaths m es,
      List.mem_map.2 ⟨es, hes, rfl⟩, hmem1⟩
  rw [← flatten_map_runWorker] at hmem2
  exact (perm_flatten_of_perm harr).mem_iff.2 hmem2

/-- Counterexample for C1 as stated: `eNonUtf8` passes every stage of the
predicate pipeline, yet the worker's push step
(`if let Some(path_str) = path.to_str()`) silently drops it because its
platform path is not valid UTF-8 — the run yields no batch at all, so the
path appears in no result set. -/
theorem c1_counterexample :
    rootSkip eNonUtf8 = false ∧ patternOk mNone eNonUtf8 = true
    ∧ extensionOk mNone eNonUtf8 = true ∧ fileTypeOk mNone eNonUtf8 = true
    ∧ metadataOk mNone eNonUtf8 = true
    ∧ runWorker mNone [some eNonUtf8] = [] :=
  ⟨rfl, rfl, rfl, rfl, rfl, rfl⟩

/-- Witness for C1 at a concrete accepted UTF-8 entry. -/
theorem c1_witness :
    "./a.txt" ∈ acceptedPaths mNone [some eUtf8]
    ∧ "./a.txt" ∈ ([["./a.txt"]] : List (List String)).flatten :=
  c1_accepted_utf8_in_result mNone eUtf8 "./a.txt" [some eUtf8]
    [[some eUtf8]] [["./a.txt"]] rfl rfl rfl rfl rfl rfl
    (List.mem_singleton.2 rfl) (List.mem_singleton.2 rfl) (List.Perm.refl _)

/-- Claim C3 (amended): a depth-0 entry that is a directory is always
rejected by the pipeline, for every configuration and hence for every root;
a depth-0 root entry that is NOT a directory remains a candidate — see the
counterexample. -/
theorem c3_root_dir_excluded (m : CompiledMatchers) (e : TraversalEntry)
    (h0 : e.depth = 0) (hd : e.file_type = some FileType.dir) :
    acceptEntry m (some e) = none := by
  have hskip : rootSkip e = true := by
    unfold rootSkip
    rw [h0, hd]
    rfl
  simp [acceptEntry, hskip]

/-- Counterexample for C3 as stated: a depth-0 entry that is a regular file
(a search root that is a file) is not excluded — it passes the depth-0 check
and is returned. -/
theorem c3_counterexample :
    eRootFile.depth = 0
    ∧ acceptEntry mNone (some eRootFile) = some "root.txt"
    ∧ runWorker mNone [some eRootFile] = [["root.txt"]] :=
  ⟨rfl, rfl, rfl⟩

/-- Witness for C3 at the concrete root-directory entry. -/
theorem c3_witness : acceptEntry mNone (some eRootDir) = none :=
  c3_root_dir_excluded mNone eRootDir rfl rfl

/-- Claim C8 (amended): the token arms of the file-type restriction —
`f`/`file` require regular-file type, `d`/`dir`/`directory` require
directory type, `l`/`symlink` require symlink type, and every token outside
these seven accepts every entry; no token value is an error (the match is
total).  The claim's original token list omits `dir`, which the code also
treats as a directory requirement — see the counterexample. -/
theorem c8_file_type_tokens (ft : String) (t : Option FileType) :
    ((ft = "f" ∨ ft = "file") →
      fileTypeMatches ft t = (t == some FileType.file))
    ∧ ((ft = "d" ∨ ft = "dir" ∨ ft = "directory") →
      fileTypeMatches ft t = (t == some FileType.dir))
    ∧ ((ft = "l" ∨ ft = "symlink") →
      fileTypeMatches ft t = (t == some FileType.symlink))
    ∧ (ft ∉ ["f", "file", "d", "dir", "directory", "l", "symlink"] →
      fileTypeMatches ft t = true) := by
  refine ⟨fun h => ?_, fun h => ?_, fun h => ?_, fun h => ?_⟩
  · unfold fileTypeMatches
    rw [if_pos h]
  · unfold fileTypeMatches
    rcases h with h | h | h <;> subst h <;> rfl
  · unfold fileTypeMatches
    rcases h with h | h <;> subst h <;> rfl
  · simp only [List.mem_cons, List.not_mem_nil, or_false, not_or] at h
    obtain ⟨hf, hfile, hd, hdir, hdirectory, hl, hsymlink⟩ := h
    unfold fileTypeMatches
    rw [if_neg (by tauto), if_neg (by tauto), if_neg (by tauto)]

/-- Counterexample for C8 as stated: `dir` is outside the claim's six-token
list, yet the code treats it as a directory requirement: with file-type
token `dir`, a regular-file entry is rejected rather than accepted. -/
theorem c8_counterexample :
    ("dir" ≠ "file" ∧ "dir" ≠ "f" ∧ "dir" ≠ "directory" ∧ "dir" ≠ "d"
      ∧ "dir" ≠ "symlink" ∧ "dir" ≠ "l")
    ∧ fileTypeMatches "dir" (some FileType.file) = false
    ∧ acceptEntry mDirToken (some eUtf8) = none := by
  exact ⟨by decide, rfl, rfl⟩

/-- Witness for C8 at a concrete unrecognized token. -/
theorem c8_witness : fileTypeMatches "socket" (some FileType.file) = true :=
  (c8_file_type_tokens "socket" (some FileType.file)).2.2.2 (by decide)

/-- Claim C4: whenever the name/path pattern compiles, the spec handed to
the regex builder has `case_insensitive = !case_sensitive`; whenever an
extension filter compiles, the spec handed to the builder is exactly the
suffix pattern backslash-dot + escaped-extension + end-of-string with
`case_insensitive` unconditionally `true`, independent of
`case_sensitive`. -/
theorem c4_case_sensitivity (P : Primitives) (config : SearchConfig)
    (ext : String) (s s2 : RegexSpec) (r r2 : String → Bool) :
    (build_pattern_regex P config = Except.ok (some (s, r)) →
      s.case_insensitive = !config.case_sensitive)
    ∧ (config.extension = some ext →
      build_extension_regex P config = Except.ok (some (s2, r2)) →
      s2.source = "\\." ++ regexEscape ext ++ "$"
        ∧ s2.case_insensitive = true) := by
  constructor
  · intro h
    unfold build_pattern_regex at h
    cases hp : config.pattern with
    | none =>
      rw [hp] at h
      simp at h
    | some pat =>
      rw [hp] at h
      simp only [bind, Except.bind] at h
      by_cases hgl : config.glob
      · rw [if_pos hgl] at h
        cases hg : glob_to_regex P pat with
        | error e =>
          rw [hg] at h
          simp at h
        | ok rp =>
          rw [hg] at h
          simp only at h
          cases hc : P.compile ⟨rp, !config.case_sensitive⟩ with
          | error e =>
            rw [hc] at h
            simp at h
          | ok rr =>
            rw [hc] at h
            simp only [Except.ok.injEq, Option.some.injEq,
              Prod.mk.injEq] at h
            obtain ⟨hs, _⟩ := h
            rw [← hs]
      · rw [if_neg hgl] at h
        cases hc : P.compile ⟨pat, !config.case_sensitive⟩ with
        | error e =>
          rw [hc] at h
          simp at h
        | ok rr =>
          rw [hc] at h
          simp only [Except.ok.injEq, Option.some.injEq,
            Prod.mk.injEq] at h
          obtain ⟨hs, _⟩ := h
          rw [← hs]
  · intro hext h
    unfold build_extension_regex at h
    rw [hext] at h
    simp only [bind, Except.bind] at h
    cases hc : P.compile ⟨"\\." ++ regexEscape ext ++ "$", true⟩ with
    | error e =>
      rw [hc] at h
      simp at h
    | ok rr =>
      rw [hc] at h
      simp only [Except.ok.injEq, Option.some.injEq, Prod.mk.injEq] at h
      obtain ⟨hs, _⟩ := h
      rw [← hs]
      exact ⟨rfl, rfl⟩

/-- Witness for C4 at a concrete config with a pattern and an extension,
and primitives whose compilation succeeds. -/
theorem c4_witness :
    (⟨"foo", true⟩ : RegexSpec).case_insensitive = !cfg4.case_sensitive
    ∧ (⟨"\\." ++ regexEscape "txt" ++ "$", true⟩ : RegexSpec).source
        = "\\." ++ regexEscape "txt" ++ "$"
    ∧ (⟨"\\." ++ regexEscape "txt" ++ "$", true⟩ : RegexSpec).case_insensitive
        = true :=
  ⟨(c4_case_sensitivity trivialPrims cfg4 "txt" ⟨"foo", true⟩
      ⟨"\\." ++ regexEscape "txt" ++ "$", true⟩ (fun _ => true)
      (fun _ => true)).1 rfl,
   (c4_case_sensitivity trivialPrims cfg4 "txt" ⟨"foo", true⟩
      ⟨"\\." ++ regexEscape "txt" ++ "$", true⟩ (fun _ => true)
      (fun _ => true)).2 rfl rfl⟩

/-- Claim C7: `search` fails exactly when pattern compilation (including
glob translation), extension compilation, or exclude/override compilation
fails; such an error is independent of anything the traversal would produce
(it is raised before any walking), and by the result type no partial
results accompany it. -/
theorem c7_hard_errors (P : Primitives) (config : SearchConfig) :
    (∀ arrival, (∃ e, search P config arrival = Except.error e) ↔
      ((∃ e, build_pattern_regex P config = Except.error e)
        ∨ (∃ e, build_extension_regex P config = Except.error e)
        ∨ (∃ e, configure_walker P config = Except.error e)))
    ∧ (∀ a₁ a₂ e, search P config a₁ = Except.error e →
        search P config a₂ = Except.error e) := by
  have hpaths : ∃ q qs, (if config.paths.isEmpty then ["."]
      else config.paths) = q :: qs := by
    cases hps : config.paths with
    | nil => exact ⟨".", [], by simp⟩
    | cons q qs => exact ⟨q, qs, by simp⟩
  obtain ⟨q, qs, hq⟩ := hpaths
  have hsearch : ∀ arrival, search P config arrival =
      (match build_pattern_regex P config with
       | Except.error e => Except.error e
       | Except.ok _ =>
         match build_extension_regex P config with
         | Except.error e => Except.error e
         | Except.ok _ =>
           match configure_walker P config with
           | Except.error e => Except.error e
           | Except.ok _ => Except.ok arrival.flatten) := by
    intro arrival
    unfold search
    simp only [bind, Except.bind, hq]
    cases build_pattern_regex P config with
    | error e => rfl
    | ok v1 =>
      cases build_extension_regex P config with
      | error e => rfl
      | ok v2 =>
        cases configure_walker P config with
        | error e => rfl
        | ok v3 => rfl
  constructor
  · intro arrival
    rw [hsearch arrival]
    cases h1 : build_pattern_regex P config with
    | error e => simp
    | ok v1 =>
      cases h2 : build_extension_regex P config with
      | error e => simp
      | ok v2 =>
        cases h3 : configure_walker P config with
        | error e => simp
        | ok v3 => simp
  · intro a₁ a₂ e h
    rw [hsearch a₁] at h
    rw [hsearch a₂]
    cases h1 : build_pattern_regex P config with
    | error e1 =>
      rw [h1] at h
      exact h
    | ok v1 =>
      rw [h1] at h
      cases h2 : build_extension_regex P config with
      | error e2 =>
        rw [h2] at h
        exact h
      | ok v2 =>
        rw [h2] at h
        cases h3 : configure_walker P config with
        | error e3 =>
          rw [h3] at h
          exact h
        | ok v3 =>
          rw [h3] at h
          simp at h

/-- Witness for C7: with a failing regex compiler the same error is
produced for two different traversal outcomes. -/
theorem c7_witness :
    search failPrims cfgBadPattern [["x"]]
      = Except.error "regex parse error" :=
  (c7_hard_errors failPrims cfgBadPattern).2 [] [["x"]]
    "regex parse error" rfl

/-- Claim C5: for an entry with readable metadata and readable modification
time (all times within the `i64` range, bounds nonnegative as enforced by
the binding), the filter accepts exactly when the byte length lies in the
inclusive `[min_size, max_size]` range, the modification time is at least
`now - changed_within`, and at most `now - changed_before`. -/
theorem sat_sub_eq (a b : Int) (ha0 : 0 ≤ a) (haM : a ≤ I64_MAX)
    (hb0 : 0 ≤ b) (hbM : b ≤ I64_MAX) :
    i64_saturating_sub a b = a - b := by
  unfold i64_saturating_sub I64_MAX I64_MIN at *
  omega

theorem c5_size_time_bounds (md : Metadata) (secs n : Nat)
    (mins maxs : Option Nat) (cw cb : Option Int)
    (hmod : md.modified = some secs)
    (hsecs : (secs : Int) ≤ I64_MAX) (hn : (n : Int) ≤ I64_MAX)
    (hw : ∀ w, cw = some w → 0 ≤ w ∧ w ≤ I64_MAX)
    (hb : ∀ b, cb = some b → 0 ≤ b ∧ b ≤ I64_MAX) :
    matches_metadata_filters (some md) mins maxs cw cb (some n) = true ↔
      ((∀ mi, mins = some mi → mi ≤ md.len)
       ∧ (∀ ma, maxs = some ma → md.len ≤ ma)
       ∧ (∀ w, cw = some w → (n : Int) - w ≤ (secs : Int))
       ∧ (∀ b, cb = some b → (secs : Int) ≤ (n : Int) - b)) := by
  have hft : file_time_of secs = (secs : Int) := by
    unfold file_time_of
    rw [if_pos hsecs]
  have hnow : now_of (some n) = (n : Int) := by
    simp [now_of, hn]
  have hn0 : (0 : Int) ≤ (n : Int) := Int.natCast_nonneg n
  rcases cw with _ | w
  · rcases cb with _ | b
    · rcases mins with _ | mi <;> rcases maxs with _ | ma <;>
        simp [matches_metadata_filters]
    · obtain ⟨hb0, hbM⟩ := hb b rfl
      have hsb : i64_saturating_sub (n : Int) b = (n : Int) - b :=
        sat_sub_eq _ _ hn0 hn hb0 hbM
      rcases mins with _ | mi <;> rcases maxs with _ | ma <;>
        simp [matches_metadata_filters, hmod, hft, hnow, hsb]
  · obtain ⟨hw0, hwM⟩ := hw w rfl
    have hsw : i64_saturating_sub (n : Int) w = (n : Int) - w :=
      sat_sub_eq _ _ hn0 hn hw0 hwM
    rcases cb with _ | b
    · rcases mins with _ | mi <;> rcases maxs with _ | ma <;>
        simp [matches_metadata_filters, hmod, hft, hnow, hsw]
    · obtain ⟨hb0, hbM⟩ := hb b rfl
      have hsb : i64_saturating_sub (n : Int) b = (n : Int) - b :=
        sat_sub_eq _ _ hn0 hn hb0 hbM
      rcases mins with _ | mi <;> rcases maxs with _ | ma <;>
        simp [matches_metadata_filters, hmod, hft, hnow, hsw, hsb]

/-- Witness for C5 at concrete metadata and bounds. -/
theorem c5_witness :
    matches_metadata_filters (some ⟨10, some 100⟩) (some 5) (some 20)
      (some 60) (some 10) (some 120) = true :=
  (c5_size_time_bounds ⟨10, some 100⟩ 100 120 (some 5) (some 20)
    (some 60) (some 10) rfl (by decide) (by decide)
    (fun w hw => by
      injection hw with hw
      subst hw
      decide)
    (fun b hb => by
      injection hb with hb
      subst hb
      decide)).mpr
    ⟨fun mi h => by
      injection h with h
      subst h
      decide,
     fun ma h => by
      injection h with h
      subst h
      decide,
     fun w h => by
      injection h with h
      subst h
      decide,
     fun b h => by
      injection h with h
      subst h
      decide⟩

/-- Claim C6: with no size/time bound set the metadata stage accepts every
entry without consulting metadata (even unreadable metadata); with some
bound set, unreadable metadata rejects the entry; with readable metadata
but unreadable modification time, the time bounds are silently skipped and
only the size bounds decide. -/
theorem c6_metadata_fetch_policy :
    (∀ meta now_secs,
      matches_metadata_filters meta none none none none now_secs = true)
    ∧ (∀ mins maxs cw cb now_secs,
      (mins.isSome || maxs.isSome || cw.isSome || cb.isSome) = true →
      matches_metadata_filters none mins maxs cw cb now_secs = false)
    ∧ (∀ (md : Metadata) mins maxs cw cb now_secs, md.modified = none →
      matches_metadata_filters (some md) mins maxs cw cb now_secs =
        matches_metadata_filters (some md) mins maxs none none now_secs) := by
  refine ⟨fun meta now_secs => rfl, ?_, ?_⟩
  · intro mins maxs cw cb now_secs h
    rcases mins with _ | mi <;> rcases maxs with _ | ma <;>
      rcases cw with _ | w <;> rcases cb with _ | b <;>
      simp_all [matches_metadata_filters]
  · intro md mins maxs cw cb now_secs hmod
    rcases mins with _ | mi <;> rcases maxs with _ | ma <;>
      rcases cw with _ | w <;> rcases cb with _ | b <;>
      simp [matches_metadata_filters, hmod]

/-- Witness for C6: with a size bound set and metadata unreadable, the
entry is rejected. -/
theorem c6_witness :
    matches_metadata_filters none (some 1) none none none none = false :=
  c6_metadata_fetch_policy.2.1 (some 1) none none none none rfl

/-! ### Helper lemmas: the binding layer's numeric validation -/

theorem require_nonneg_nat_ok (name : String) (x : Int) (h : 0 ≤ x) :
    require_nonneg_nat name (some x) = Except.ok (some x.toNat) := by
  have hx : ¬ x < 0 := by omega
  simp [require_nonneg_nat, hx]

theorem require_nonneg_time_ok (name : String) (x : Int) (h : 0 ≤ x) :
    require_nonneg_time name (some x) = Except.ok (some x) := by
  have hx : ¬ x < 0 := by omega
  simp [require_nonneg_time, hx]

theorem exceptBind_ok {ε α β : Type} {r : Except ε α} {f : α → Except ε β}
    {c : β} (h : (r >>= f) = Except.ok c) :
    ∃ a, r = Except.ok a ∧ f a = Except.ok c := by
  cases r with
  | error e => exact absurd h (by simp [Bind.bind, Except.bind])
  | ok a => exact ⟨a, rfl, by simpa [Bind.bind, Except.bind] using h⟩

theorem require_nonneg_nat_ok_imp {name : String} {mv : Option Int}
    {o : Option Nat} (h : require_nonneg_nat name mv = Except.ok o) :
    ∀ v, mv = some v → 0 ≤ v := by
  intro v hv
  subst hv
  by_cases hneg : v < 0
  · simp [require_nonneg_nat, hneg] at h
  · omega

theorem require_nonneg_time_ok_imp {name : String} {mv : Option Int}
    {o : Option Int} (h : require_nonneg_time name mv = Except.ok o) :
    ∀ v, mv = some v → 0 ≤ v := by
  intro v hv
  subst hv
  by_cases hneg : v < 0
  · simp [require_nonneg_time, hneg] at h
  · omega

theorem build_ok_nonneg (p : SearchParams) (c : SearchConfig)
    (h : build_search_config p = Except.ok c) :
    (∀ v, p.max_depth = some v → 0 ≤ v)
    ∧ (∀ v, p.min_depth = some v → 0 ≤ v)
    ∧ (∀ v, p.min_size = some v → 0 ≤ v)
    ∧ (∀ v, p.max_size = some v → 0 ≤ v)
    ∧ (∀ v, p.changed_within = some v → 0 ≤ v)
    ∧ (∀ v, p.changed_before = some v → 0 ≤ v) := by
  unfold build_search_config at h
  obtain ⟨a1, h1, h⟩ := exceptBind_ok h
  obtain ⟨a2, h2, h⟩ := exceptBind_ok h
  obtain ⟨a3, h3, h⟩ := exceptBind_ok h
  obtain ⟨a4, h4, h⟩ := exceptBind_ok h
  obtain ⟨a5, h5, h⟩ := exceptBind_ok h
  obtain ⟨a6, h6, _⟩ := exceptBind_ok h
  exact ⟨require_nonneg_nat_ok_imp h1, require_nonneg_nat_ok_imp h2,
    require_nonneg_nat_ok_imp h3, require_nonneg_nat_ok_imp h4,
    require_nonneg_time_ok_imp h5, require_nonneg_time_ok_imp h6⟩

/-- Claim C9 (amended): when both depth bounds are supplied, every supplied
numeric argument is nonnegative (so that config construction succeeds), and
the minimum depth exceeds the maximum, the binding returns an empty result
without invoking the engine: the result is `ok []` whatever the engine
would do.  Without the nonnegativity proviso the claim fails — see the
counterexample, where the argument validation fires first. -/
theorem c9_short_circuit (p : SearchParams) (mn mx : Int)
    (engine : SearchConfig → Except String (List String))
    (hmin : p.min_depth = some mn) (hmax : p.max_depth = some mx)
    (h0n : 0 ≤ mn) (h0x : 0 ≤ mx) (hgt : mx < mn)
    (hms : ∀ v, p.min_size = some v → 0 ≤ v)
    (hMs : ∀ v, p.max_size = some v → 0 ≤ v)
    (hcw : ∀ v, p.changed_within = some v → 0 ≤ v)
    (hcb : ∀ v, p.changed_before = some v → 0 ≤ v) :
    fdr_search p engine = Except.ok [] := by
  have hlt : mx.toNat < mn.toNat := by omega
  have h1 : require_nonneg_nat "max_depth" p.max_depth
      = Except.ok (some mx.toNat) := by
    rw [hmax]
    exact require_nonneg_nat_ok _ _ h0x
  have h2 : require_nonneg_nat "min_depth" p.min_depth
      = Except.ok (some mn.toNat) := by
    rw [hmin]
    exact require_nonneg_nat_ok _ _ h0n
  have h3 : ∃ o, require_nonneg_nat "min_size" p.min_size = Except.ok o := by
    rcases hmsz : p.min_size with _ | v
    · exact ⟨none, rfl⟩
    · exact ⟨some v.toNat, require_nonneg_nat_ok _ _ (hms v hmsz)⟩
  have h4 : ∃ o, require_nonneg_nat "max_size" p.max_size = Except.ok o := by
    rcases hmsz : p.max_size with _ | v
    · exact ⟨none, rfl⟩
    · exact ⟨some v.toNat, require_nonneg_nat_ok _ _ (hMs v hmsz)⟩
  have h5 : ∃ o, require_nonneg_time "changed_within" p.changed_within
      = Except.ok o := by
    rcases hc : p.changed_within with _ | v
    · exact ⟨none, rfl⟩
    · exact ⟨some v, require_nonneg_time_ok _ _ (hcw v hc)⟩
  have h6 : ∃ o, require_nonneg_time "changed_before" p.changed_before
      = Except.ok o := by
    rcases hc : p.changed_before with _ | v
    · exact ⟨none, rfl⟩
    · exact ⟨some v, require_nonneg_time_ok _ _ (hcb v hc)⟩
  obtain ⟨o3, h3⟩ := h3
  obtain ⟨o4, h4⟩ := h4
  obtain ⟨o5, h5⟩ := h5
  obtain ⟨o6, h6⟩ := h6
  unfold fdr_search build_search_config
  rw [h1, h2, h3, h4, h5, h6]
  simp only [bind, Except.bind]
  simp [hlt]

/-- Counterexample for C9 as stated: with `min_depth = -1` and
`max_depth = -2` both depth bounds are supplied and the minimum exceeds the
maximum, yet the binding raises an `ArgumentError` for the negative
`max_depth` instead of returning an empty result. -/
theorem c9_counterexample :
    p9neg.min_depth = some (-1) ∧ p9neg.max_depth = some (-2)
    ∧ ((-2 : Int) < -1)
    ∧ fdr_search p9neg (fun _ => Except.ok ["sentinel"])
        = Except.error "max_depth must be a non-negative integer, got -2"
    ∧ fdr_search p9neg (fun _ => Except.ok ["sentinel"]) ≠ Except.ok [] :=
  ⟨rfl, rfl, by decide, rfl, fun hcontra => nomatch hcontra⟩

/-- Witness for C9 at concrete valid depths 5 > 3. -/
theorem c9_witness :
    fdr_search p9 (fun _ => Except.ok ["sentinel"]) = Except.ok [] :=
  c9_short_circuit p9 5 3 (fun _ => Except.ok ["sentinel"]) rfl rfl
    (by decide) (by decide) (by decide)
    (fun v hv => nomatch hv) (fun v hv => nomatch hv)
    (fun v hv => nomatch hv) (fun v hv => nomatch hv)

/-- Claim C10: a negative value supplied for `max_depth`, `min_depth`,
`min_size`, `max_size`, `changed_within` or `changed_before` makes the
binding raise an argument error during config construction, and the
`fdr_search` result is that error regardless of the engine — the engine is
never consulted. -/
theorem c10_negative_args (p : SearchParams)
    (h : (∃ v, p.max_depth = some v ∧ v < 0)
      ∨ (∃ v, p.min_depth = some v ∧ v < 0)
      ∨ (∃ v, p.min_size = some v ∧ v < 0)
      ∨ (∃ v, p.max_size = some v ∧ v < 0)
      ∨ (∃ v, p.changed_within = some v ∧ v < 0)
      ∨ (∃ v, p.changed_before = some v ∧ v < 0)) :
    ∃ e, build_search_config p = Except.error e
      ∧ ∀ engine, fdr_search p engine = Except.error e := by
  cases hb : build_search_config p with
  | error e =>
    refine ⟨e, rfl, fun engine => ?_⟩
    unfold fdr_search
    rw [hb]
    rfl
  | ok c =>
    exfalso
    obtain ⟨n1, n2, n3, n4, n5, n6⟩ := build_ok_nonneg p c hb
    rcases h with ⟨v, hv, hneg⟩ | ⟨v, hv, hneg⟩ | ⟨v, hv, hneg⟩
      | ⟨v, hv, hneg⟩ | ⟨v, hv, hneg⟩ | ⟨v, hv, hneg⟩
    · exact absurd (n1 v hv) (by omega)
    · exact absurd (n2 v hv) (by omega)
    · exact absurd (n3 v hv) (by omega)
    · exact absurd (n4 v hv) (by omega)
    · exact absurd (n5 v hv) (by omega)
    · exact absurd (n6 v hv) (by omega)

/-- Witness for C10 at a concrete negative `max_depth`. -/
theorem c10_witness :
    ∃ e, build_search_config p10 = Except.error e
      ∧ ∀ engine, fdr_search p10 engine = Except.error e :=
  c10_negative_args p10 (Or.inl ⟨-1, rfl, by decide⟩)

end Fdr
